import Mathlib

/-!
Verification of the ETL core of the repository: the text-chunk assembler
(`src/chunk_generator.py`) and the batched database writer
(`src/database_writer.py`).

Python strings are modelled as `List Char` (a Python string is a sequence of
code points).  A dictionary field that may be missing or empty is modelled as
a possibly empty list: Python truthiness of a string coincides with
non-emptiness, and the code only ever tests truthiness of these fields.
-/

/-- Model of a Python string: a sequence of characters. -/
abbrev Str := List Char

/-- A post record.  The generator reads exactly these five fields
(`post_id`, `timestamp`, `author`, `title`, `post_texts`); a missing or
empty field is the empty list. -/
structure Post where
  post_id : Str
  timestamp : Str
  author : Str
  title : Str
  post_texts : Str
deriving DecidableEq

/-- A comment record.  The generator reads only `comment_texts`
(via `comment.get('comment_texts', '')`). -/
structure Comment where
  comment_texts : Str
deriving DecidableEq

/-- The chunk dictionary returned by `ChunkGenerator.generate_chunk`. -/
structure ChunkRecord where
  post_id : Str
  timestamp : Str
  full_chunk : Str
  engagement_score : Nat
deriving DecidableEq

/-- `ChunkGenerator.DELIMITER = "\n\n---\n\n"`. -/
def DELIMITER : Str := "\n\n---\n\n".data

/-- The whitespace test of Python `str.split()` with no separator
(ASCII whitespace; the characters the program ever produces). -/
def pyIsSpace (c : Char) : Bool :=
  c = ' ' || c = '\t' || c = '\n' || c = '\r' || c = Char.ofNat 11 || c = Char.ofNat 12

/-- Emit the word collected so far, unless it is empty. -/
def flushWord (acc : Str) : List Str :=
  if acc = [] then [] else [acc]

/-- Accumulator pass of Python `str.split()` (no separator): runs of
whitespace separate words and empty words are dropped. -/
def wordsAcc : Str → Str → List Str
  | acc, [] => flushWord acc
  | acc, c :: cs =>
    if pyIsSpace c then flushWord acc ++ wordsAcc [] cs
    else wordsAcc (acc ++ [c]) cs

/-- `text.split()` of Python with no separator. -/
def pyWords (s : Str) : List Str :=
  wordsAcc [] s

/-- Number of whitespace-separated words of a string. -/
def countWords (s : Str) : Nat :=
  (pyWords s).length

/-- `sep.join(parts)` of Python. -/
def joinWith (sep : Str) : List Str → Str
  | [] => []
  | [w] => w
  | w :: v :: ws => w ++ sep ++ joinWith sep (v :: ws)

/-- `ChunkGenerator._truncate_to_words`: split on whitespace; if at most
`max_words` words, return the text unchanged; otherwise keep the first
`max_words` words rejoined with single spaces. -/
def truncate_to_words (text : Str) (max_words : Nat) : Str :=
  if text = [] then []
  else
    let ws := pyWords text
    if ws.length ≤ max_words then text
    else joinWith [' '] (ws.take max_words)

/-- The author field of the metadata line:
`(post.get('author', '')[:5]) if post.get('author') else ''`. -/
def author_first5 (p : Post) : Str :=
  if p.author = [] then [] else p.author.take 5

/-- The metadata line (section 1), always emitted first. -/
def metadata_line (p : Post) : Str :=
  "metadata: [Post_id: ".data ++ p.post_id
    ++ " | Timestamp: ".data ++ p.timestamp
    ++ " | Author: ".data ++ author_first5 p ++ "]".data

/-- The title section line. -/
def title_line (p : Post) : Str :=
  "Title: ".data ++ p.title

/-- The question section line. -/
def question_line (p : Post) : Str :=
  "Question (priority 1): ".data ++ p.post_texts

/-- Text of the first comment, or empty when there is none
(`comments[0].get('comment_texts', '')`). -/
def headCommentText (cs : List Comment) : Str :=
  match cs with
  | [] => []
  | c :: _ => c.comment_texts

/-- The important-answer section line. -/
def important_line (cs : List Comment) : Str :=
  "Important answer (priority 2): ".data ++ headCommentText cs

/-- The non-empty texts of `comments[1:]`, in order. -/
def tailCommentTexts (cs : List Comment) : List Str :=
  ((cs.drop 1).map Comment.comment_texts).filter (fun t => ¬ t = [])

/-- The other-comments section line. -/
def others_line (cs : List Comment) : Str :=
  "Other comments (priority 3): ".data ++ joinWith DELIMITER (tailCommentTexts cs)

/-- The `components` list built by `ChunkGenerator.generate_chunk`,
appended to in source order (metadata, title, question, important answer,
other comments), each conditional section appended only when its Python
truthiness test passes. -/
def generate_components (p : Post) (cs : List Comment) : List Str :=
  let components := [metadata_line p]
  let components :=
    if p.title = [] then components else components ++ [title_line p]
  let components :=
    if p.post_texts = [] then components else components ++ [question_line p]
  let components :=
    match cs with
    | [] => components
    | c0 :: _ =>
      if c0.comment_texts = [] then components
      else components ++ ["Important answer (priority 2): ".data ++ c0.comment_texts]
  let components :=
    match cs with
    | [] => components
    | _ :: rest =>
      let texts := (rest.map Comment.comment_texts).filter (fun t => ¬ t = [])
      if texts = [] then components
      else components ++ ["Other comments (priority 3): ".data ++ joinWith DELIMITER texts]
  components

/-- The joined, untruncated text (`full_text` in the source). -/
def assembled_text (p : Post) (cs : List Comment) : Str :=
  joinWith DELIMITER (generate_components p cs)

/-- `ChunkGenerator.generate_chunk`; `chunk_size` is the word budget of the
generator instance. -/
def generate_chunk (chunk_size : Nat) (p : Post) (cs : List Comment) : ChunkRecord :=
  { post_id := p.post_id
    timestamp := p.timestamp
    full_chunk := truncate_to_words (assembled_text p cs) chunk_size
    engagement_score := cs.length }

/-- Whether the important-answer section is present: a first comment exists
and its text is non-empty. -/
def importantPresent (cs : List Comment) : Bool :=
  match cs with
  | [] => false
  | c :: _ => ¬ c.comment_texts = []

/-- Whether the other-comments section is present: some comment past the
first has non-empty text. -/
def othersPresent (cs : List Comment) : Bool :=
  (cs.drop 1).any (fun c => ¬ c.comment_texts = [])

/-- `ChunkGenerator.generate_chunks_batch`.  `gen` models the call
`self.generate_chunk(post, comments)`, returning `none` when that call
raises: the batch loop catches the exception and skips the pair. -/
def generate_chunks_batch (gen : Post → List Comment → Option ChunkRecord) :
    List (Post × List Comment) → List ChunkRecord
  | [] => []
  | (p, cs) :: rest =>
    match gen p cs with
    | some chunk => chunk :: generate_chunks_batch gen rest
    | none => generate_chunks_batch gen rest

/-! ### Lemmas about the word splitter -/

lemma pyIsSpace_space : pyIsSpace ' ' = true := by decide

lemma wordsAcc_append_word (w : Str) (hw : ∀ c ∈ w, pyIsSpace c = false) :
    ∀ (acc l : Str), wordsAcc acc (w ++ l) = wordsAcc (acc ++ w) l := by
  induction w with
  | nil => intro acc l; simp
  | cons c w ih =>
    intro acc l
    have hc : pyIsSpace c = false := hw c (by simp)
    have hw' : ∀ d ∈ w, pyIsSpace d = false := fun d hd => hw d (by simp [hd])
    have step : wordsAcc acc ((c :: w) ++ l) = wordsAcc (acc ++ [c]) (w ++ l) := by
      simp [wordsAcc, hc]
    rw [step, ih hw' (acc ++ [c]) l, List.append_assoc, List.singleton_append]

lemma mem_flushWord {w acc : Str} (h : w ∈ flushWord acc)
    (hacc : ∀ c ∈ acc, pyIsSpace c = false) :
    w ≠ [] ∧ ∀ c ∈ w, pyIsSpace c = false := by
  unfold flushWord at h
  by_cases ha : acc = []
  · simp [ha] at h
  · simp [ha] at h
    exact h ▸ ⟨ha, hacc⟩

lemma wordsAcc_clean :
    ∀ (l acc : Str), (∀ c ∈ acc, pyIsSpace c = false) →
      ∀ w ∈ wordsAcc acc l, w ≠ [] ∧ ∀ c ∈ w, pyIsSpace c = false := by
  intro l
  induction l with
  | nil =>
    intro acc hacc w hw
    exact mem_flushWord hw hacc
  | cons c cs ih =>
    intro acc hacc w hw
    by_cases hc : pyIsSpace c
    · simp only [wordsAcc, hc, if_true] at hw
      rcases List.mem_append.1 hw with h1 | h2
      · exact mem_flushWord h1 hacc
      · exact ih [] (by simp) w h2
    · simp only [wordsAcc, hc, if_false] at hw
      refine ih (acc ++ [c]) ?_ w hw
      intro d hd
      rcases List.mem_append.1 hd with h1 | h2
      · exact hacc d h1
      · simp at h2
        simpa [h2] using hc

lemma pyWords_clean (s : Str) :
    ∀ w ∈ pyWords s, w ≠ [] ∧ ∀ c ∈ w, pyIsSpace c = false :=
  wordsAcc_clean s [] (by simp)

lemma pyWords_joinWith (ws : List Str)
    (h : ∀ w ∈ ws, w ≠ [] ∧ ∀ c ∈ w, pyIsSpace c = false) :
    pyWords (joinWith [' '] ws) = ws := by
  induction ws with
  | nil => rfl
  | cons w ws ih =>
    have hw := h w (by simp)
    cases ws with
    | nil =>
      show wordsAcc [] w = [w]
      calc wordsAcc [] w = wordsAcc [] (w ++ []) := by simp
        _ = wordsAcc ([] ++ w) [] := wordsAcc_append_word w hw.2 [] []
        _ = flushWord w := by simp [wordsAcc]
        _ = [w] := by simp [flushWord, hw.1]
    | cons v vs =>
      have h' : ∀ u ∈ v :: vs, u ≠ [] ∧ ∀ c ∈ u, pyIsSpace c = false :=
        fun u hu => h u (by simp [hu])
      show wordsAcc [] (w ++ [' '] ++ joinWith [' '] (v :: vs)) = w :: v :: vs
      rw [List.append_assoc, wordsAcc_append_word w hw.2 [] _, List.nil_append]
      simp only [List.singleton_append, wordsAcc, pyIsSpace_space, if_true]
      rw [show flushWord w = [w] by simp [flushWord, hw.1]]
      show [w] ++ wordsAcc [] (joinWith [' '] (v :: vs)) = w :: v :: vs
      rw [show wordsAcc [] (joinWith [' '] (v :: vs)) = v :: vs from ih h']
      rfl

lemma pyWords_joinWith_take (s : Str) (m : Nat) :
    pyWords (joinWith [' '] ((pyWords s).take m)) = (pyWords s).take m :=
  pyWords_joinWith _ (fun w hw => pyWords_clean s w (List.take_subset m _ hw))

lemma countWords_truncate_le (t : Str) (m : Nat) :
    countWords (truncate_to_words t m) ≤ m ∨ truncate_to_words t m = t := by
  unfold truncate_to_words
  by_cases h0 : t = []
  · simp [h0]
  · simp only [h0, if_false]
    by_cases hle : (pyWords t).length ≤ m
    · simp [hle]
    · left
      simp only [hle, if_false]
      rw [countWords, pyWords_joinWith_take]
      simp [List.length_take]

lemma countWords_nil : countWords ([] : Str) = 0 := rfl

lemma countWords_truncate_eq_min (t : Str) (m : Nat) :
    countWords (truncate_to_words t m) = min (countWords t) m := by
  unfold truncate_to_words
  by_cases h0 : t = []
  · simp [h0, countWords_nil]
  · simp only [h0, if_false]
    by_cases hle : (pyWords t).length ≤ m
    · simp only [hle, if_true]
      exact (Nat.min_eq_left hle).symm
    · simp only [hle, if_false]
      rw [countWords, pyWords_joinWith_take, List.length_take]
      have : countWords t = (pyWords t).length := rfl
      omega

/-- Sample inputs used by witness theorems. -/
def samplePost : Post :=
  { post_id := "P1".data, timestamp := "2024-01-01".data,
    author := "JohnDoe123".data, title := "T".data, post_texts := "Q".data }

/-- A sample comment used by witness theorems. -/
def sampleComment : Comment := { comment_texts := "A1".data }

/-- Claim C1: for every post, comment sequence, and positive word budget,
`full_chunk` has at most `word_budget` whitespace-split words; when the
joined untruncated text is within budget, `full_chunk` is identical to it;
when the budget is exceeded, `full_chunk` is the first `word_budget` words
rejoined with single spaces. -/
theorem claim_C1_truncation :
    ∀ (budget : Nat) (p : Post) (cs : List Comment), 0 < budget →
      countWords (generate_chunk budget p cs).full_chunk ≤ budget
      ∧ (countWords (assembled_text p cs) ≤ budget →
          (generate_chunk budget p cs).full_chunk = assembled_text p cs)
      ∧ (budget < countWords (assembled_text p cs) →
          (generate_chunk budget p cs).full_chunk
            = joinWith [' '] ((pyWords (assembled_text p cs)).take budget)) := by
  intro budget p cs hpos
  refine ⟨?_, ?_, ?_⟩
  · show countWords (truncate_to_words (assembled_text p cs) budget) ≤ budget
    rw [countWords_truncate_eq_min]
    exact Nat.min_le_right _ _
  · intro hle
    show truncate_to_words (assembled_text p cs) budget = assembled_text p cs
    unfold truncate_to_words
    by_cases h0 : assembled_text p cs = []
    · simp [h0]
    · have : (pyWords (assembled_text p cs)).length ≤ budget := hle
      simp [h0, this]
  · intro hgt
    show truncate_to_words (assembled_text p cs) budget
        = joinWith [' '] ((pyWords (assembled_text p cs)).take budget)
    unfold truncate_to_words
    have h0 : ¬ assembled_text p cs = [] := by
      intro h
      rw [h, countWords_nil] at hgt
      omega
    have hnle : ¬ (pyWords (assembled_text p cs)).length ≤ budget :=
      Nat.not_le.2 hgt
    simp [h0, hnle]

/-- Witness for C1 at a concrete input. -/
theorem claim_C1_truncation_witness :
    countWords (generate_chunk 3 samplePost [sampleComment]).full_chunk ≤ 3 :=
  (claim_C1_truncation 3 samplePost [sampleComment] (by decide)).1

/-- Claim C5: `engagement_score` of the record returned by `generate_chunk`
equals the length of the comment sequence passed in, for every post and
every comment sequence (independently of how many comment texts are empty
or rendered). -/
theorem claim_C5_engagement_score :
    ∀ (chunk_size : Nat) (p : Post) (cs : List Comment),
      (generate_chunk chunk_size p cs).engagement_score = cs.length := by
  intro chunk_size p cs
  rfl

/-- Claim C8: the author field of the metadata line is the first 5
characters of `author` (the whole string when shorter, with no padding;
empty when absent; never the full string when longer than 5). -/
theorem claim_C8_author_field :
    ∀ p : Post,
      metadata_line p
        = "metadata: [Post_id: ".data ++ p.post_id
            ++ " | Timestamp: ".data ++ p.timestamp
            ++ " | Author: ".data ++ p.author.take 5 ++ "]".data
      ∧ (p.author = [] → author_first5 p = [])
      ∧ (p.author.length ≤ 5 → author_first5 p = p.author)
      ∧ (5 < p.author.length → author_first5 p ≠ p.author) := by
  intro p
  have h5 : author_first5 p = p.author.take 5 := by
    unfold author_first5
    by_cases h : p.author = [] <;> simp [h]
  refine ⟨?_, ?_, ?_, ?_⟩
  · rw [metadata_line, h5]
  · intro h
    simp [author_first5, h]
  · intro h
    rw [h5, List.take_of_length_le h]
  · intro h heq
    rw [h5] at heq
    have hlen := congrArg List.length heq
    rw [List.length_take] at hlen
    omega

/-- Witness for C8 at a concrete input (author of length 10). -/
theorem claim_C8_author_field_witness :
    author_first5 samplePost ≠ samplePost.author :=
  (claim_C8_author_field samplePost).2.2.2 (by decide)

/-- Claim C9: batch assembly returns exactly the chunks of the non-failing
pairs, in input order; a pair on which assembly raises is skipped and the
batch continues, never aborting. -/
theorem claim_C9_batch_isolation :
    (∀ (gen : Post → List Comment → Option ChunkRecord)
       (pairs : List (Post × List Comment)),
       generate_chunks_batch gen pairs
         = pairs.filterMap (fun pc => gen pc.1 pc.2))
    ∧ (∀ (gen : Post → List Comment → Option ChunkRecord)
         (l r : List (Post × List Comment)) (p : Post) (cs : List Comment),
         gen p cs = none →
         generate_chunks_batch gen (l ++ (p, cs) :: r)
           = generate_chunks_batch gen l ++ generate_chunks_batch gen r) := by
  have key : ∀ (gen : Post → List Comment → Option ChunkRecord)
      (pairs : List (Post × List Comment)),
      generate_chunks_batch gen pairs
        = pairs.filterMap (fun pc => gen pc.1 pc.2) := by
    intro gen pairs
    induction pairs with
    | nil => rfl
    | cons pc rest ih =>
      rcases pc with ⟨p, cs⟩
      simp only [generate_chunks_batch]
      cases h : gen p cs <;> simp [List.filterMap_cons, h, ih]
  refine ⟨key, ?_⟩
  intro gen l r p cs h
  rw [key, key, key, List.filterMap_append, List.filterMap_cons]
  simp [h]

/-- A generator that raises on comment-less pairs, used by the C9 witness. -/
def genDropEmpty : Post → List Comment → Option ChunkRecord :=
  fun p cs =>
    match cs with
    | [] => none
    | _ => some (generate_chunk 300 p cs)

/-- Witness for C9 at a concrete input: the failing pair is skipped. -/
theorem claim_C9_batch_isolation_witness :
    generate_chunks_batch genDropEmpty
        [(samplePost, []), (samplePost, [sampleComment])]
      = generate_chunks_batch genDropEmpty []
          ++ generate_chunks_batch genDropEmpty [(samplePost, [sampleComment])] :=
  claim_C9_batch_isolation.2 genDropEmpty [] [(samplePost, [sampleComment])]
    samplePost [] rfl

lemma filter_texts_nil (rest : List Comment) :
    ((rest.map Comment.comment_texts).filter (fun t => ¬ t = []) = [])
      ↔ (rest.any (fun c => ¬ c.comment_texts = []) = false) := by
  induction rest with
  | nil => simp
  | cons c rest ih =>
    by_cases h : c.comment_texts = [] <;> simp [h, ih]

lemma components_split (p : Post) (cs : List Comment) :
    generate_components p cs
      = [metadata_line p]
        ++ (if p.title = [] then [] else [title_line p])
        ++ (if p.post_texts = [] then [] else [question_line p])
        ++ (if importantPresent cs then [important_line cs] else [])
        ++ (if othersPresent cs then [others_line cs] else []) := by
  cases cs with
  | nil =>
    by_cases ht : p.title = [] <;> by_cases hq : p.post_texts = [] <;>
      simp [generate_components, importantPresent, othersPresent, ht, hq]
  | cons c0 rest =>
    have hdrop : othersPresent (c0 :: rest)
        = rest.any (fun c => ¬ c.comment_texts = []) := rfl
    by_cases ha : (rest.map Comment.comment_texts).filter (fun t => ¬ t = []) = []
    · have ho : othersPresent (c0 :: rest) = false := by
        rw [hdrop]
        exact (filter_texts_nil rest).1 ha
      have hall : ∀ x ∈ rest, x.comment_texts = [] := by
        have h := (filter_texts_nil rest).1 ha
        simpa using h
      by_cases h0 : c0.comment_texts = [] <;> by_cases ht : p.title = [] <;>
        by_cases hq : p.post_texts = [] <;>
        (simp [generate_components, importantPresent, important_line, headCommentText,
          h0, ht, hq, ha, ho]) <;> exact hall
    · have ho : othersPresent (c0 :: rest) = true := by
        rw [hdrop]
        cases hb : rest.any (fun c => ¬ c.comment_texts = [])
        · exact absurd ((filter_texts_nil rest).2 hb) ha
        · rfl
      have hex : ∃ x ∈ rest, ¬ x.comment_texts = [] := by
        have h : othersPresent (c0 :: rest) = true := ho
        rw [hdrop] at h
        simpa using h
      by_cases h0 : c0.comment_texts = [] <;> by_cases ht : p.title = [] <;>
        by_cases hq : p.post_texts = [] <;>
        (simp [generate_components, importantPresent, important_line, headCommentText,
          others_line, tailCommentTexts, h0, ht, hq, ha, ho]) <;> exact hex

/-- Claim C6: before truncation the text is the fixed-order section list
(metadata, title, question, important answer, other comments) joined by the
fixed delimiter; metadata is always present and first; each other section is
present exactly when its source datum is truthy; blanking one of `title`,
`post_texts`, or all comments removes exactly that section and no other. -/
theorem claim_C6_section_structure :
    ∀ (n : Nat) (p : Post) (cs : List Comment),
      generate_components p cs
          = [metadata_line p]
            ++ (if p.title = [] then [] else [title_line p])
            ++ (if p.post_texts = [] then [] else [question_line p])
            ++ (if importantPresent cs then [important_line cs] else [])
            ++ (if othersPresent cs then [others_line cs] else [])
      ∧ (generate_components p cs).head? = some (metadata_line p)
      ∧ (generate_chunk n p cs).full_chunk
          = truncate_to_words (joinWith DELIMITER (generate_components p cs)) n
      ∧ generate_components { p with title := [] } cs
          = [metadata_line p]
            ++ (if p.post_texts = [] then [] else [question_line p])
            ++ (if importantPresent cs then [important_line cs] else [])
            ++ (if othersPresent cs then [others_line cs] else [])
      ∧ generate_components { p with post_texts := [] } cs
          = [metadata_line p]
            ++ (if p.title = [] then [] else [title_line p])
            ++ (if importantPresent cs then [important_line cs] else [])
            ++ (if othersPresent cs then [others_line cs] else [])
      ∧ generate_components p []
          = [metadata_line p]
            ++ (if p.title = [] then [] else [title_line p])
            ++ (if p.post_texts = [] then [] else [question_line p]) := by
  intro n p cs
  refine ⟨components_split p cs, ?_, rfl, ?_, ?_, ?_⟩
  · rw [components_split p cs]
    rfl
  · have h := components_split { p with title := [] } cs
    simpa [metadata_line, author_first5, title_line, question_line] using h
  · have h := components_split { p with post_texts := [] } cs
    simpa [metadata_line, author_first5, title_line, question_line] using h
  · have h := components_split p []
    simpa [importantPresent, othersPresent] using h

/-!
### The database writer (`src/database_writer.py`)

The store is modelled explicitly: `pending` holds the rows inserted in the
current (uncommitted) transaction segment, `committed` the rows durably
persisted.  `connection.commit()` moves `pending` into `committed`;
`connection.rollback()` discards `pending`.  A `psycopg2.Error` raised by
`cursor.execute` for a record is an input (the `Bool` paired with the
record); a `psycopg2.Error` raised by `connection.commit()` is driven by the
oracle `env : Nat → Bool` indexed by the ghost counter `commit_attempts`
(`env n` is whether the `n`-th commit attempt succeeds).  `commit_count` is
a ghost counter of successful commits.  Raising is modelled with `Except`,
the error value being the writer state after the rollback performed by
`_commit` before it re-raises.
-/

/-- The mutable state of a `DatabaseWriter` together with its store. -/
structure WriterState where
  batch_commit_size : Nat
  insert_count : Nat
  total_inserted : Nat
  total_failed : Nat
  pending : List ChunkRecord
  committed : List ChunkRecord
  commit_attempts : Nat
  commit_count : Nat
deriving DecidableEq

/-- A freshly constructed and connected writer
(`DatabaseWriter(db_config, batch_commit_size=n)` plus `connect()`). -/
def initWriter (n : Nat) : WriterState :=
  { batch_commit_size := n, insert_count := 0, total_inserted := 0,
    total_failed := 0, pending := [], committed := [],
    commit_attempts := 0, commit_count := 0 }

/-- Effect of a successful `_commit`: persist the pending rows, add
`insert_count` to `total_inserted`, reset `insert_count` to zero. -/
def commitState (s : WriterState) : WriterState :=
  { s with
    committed := s.committed ++ s.pending, pending := [],
    total_inserted := s.total_inserted + s.insert_count, insert_count := 0,
    commit_attempts := s.commit_attempts + 1,
    commit_count := s.commit_count + 1 }

/-- Effect of `connection.rollback()`: discard the uncommitted rows.
Note that it does not reset `insert_count`. -/
def rollbackState (s : WriterState) : WriterState :=
  { s with pending := [] }

/-- `DatabaseWriter._commit`: commit and reset the counter; on a commit
error, roll back and re-raise. -/
def pyCommit (env : Nat → Bool) (s : WriterState) : Except WriterState WriterState :=
  if env s.commit_attempts then Except.ok (commitState s)
  else Except.error { rollbackState s with commit_attempts := s.commit_attempts + 1 }

/-- `DatabaseWriter.insert_chunk`: insert one row; on reaching
`batch_commit_size` since-commit inserts, `_commit`.  `execOk` is whether
`cursor.execute` succeeds for this record.  Any `psycopg2.Error` raised in
the `try` block — including one re-raised by `_commit` at a checkpoint — is
caught: roll back, increment `total_failed`, return `False`. -/
def insert_chunk (env : Nat → Bool) (chunk : ChunkRecord) (execOk : Bool)
    (s : WriterState) : Bool × WriterState :=
  if execOk then
    let s1 :=
      { s with
        pending := s.pending ++ [chunk],
        insert_count := s.insert_count + 1 }
    if s1.batch_commit_size ≤ s1.insert_count then
      match pyCommit env s1 with
      | Except.ok s2 => (true, s2)
      | Except.error s2 =>
        (false, { rollbackState s2 with total_failed := s2.total_failed + 1 })
    else (true, s1)
  else
    (false, { rollbackState s with total_failed := s.total_failed + 1 })

/-- The `for chunk in chunks` loop of `insert_chunks_batch`, threading the
success and failure tallies. -/
def insertLoop (env : Nat → Bool) :
    List (ChunkRecord × Bool) → Nat → Nat → WriterState → Nat × Nat × WriterState
  | [], suc, fail, s => (suc, fail, s)
  | (c, ok) :: rest, suc, fail, s =>
    match insert_chunk env c ok s with
    | (true, s1) => insertLoop env rest (suc + 1) fail s1
    | (false, s1) => insertLoop env rest suc (fail + 1) s1

/-- The statistics dictionary returned by `insert_chunks_batch`. -/
structure BatchStats where
  total : Nat
  success : Nat
  failed : Nat
deriving DecidableEq

/-- `DatabaseWriter.insert_chunks_batch`: run the loop, then commit any
remaining records (`if self.insert_count > 0: self._commit()`; an error of
this final commit propagates), and return the statistics. -/
def insert_chunks_batch (env : Nat → Bool) (records : List (ChunkRecord × Bool))
    (s : WriterState) : Except WriterState (BatchStats × WriterState) :=
  let r := insertLoop env records 0 0 s
  if 0 < r.2.2.insert_count then
    match pyCommit env r.2.2 with
    | Except.ok s2 =>
      Except.ok ({ total := records.length, success := r.1, failed := r.2.1 }, s2)
    | Except.error e => Except.error e
  else
    Except.ok ({ total := records.length, success := r.1, failed := r.2.1 }, r.2.2)

/-- `DatabaseWriter.disconnect`: final commit of any remaining records,
then close (closing changes no modelled state). -/
def disconnect (env : Nat → Bool) (s : WriterState) : Except WriterState WriterState :=
  if 0 < s.insert_count then pyCommit env s else Except.ok s

/-- `DatabaseWriter.get_statistics`: `(total_inserted, total_failed)`. -/
def get_statistics (s : WriterState) : Nat × Nat :=
  (s.total_inserted, s.total_failed)

/-- Commit oracle of the normal runs: every commit attempt succeeds. -/
def allCommitsOk : Nat → Bool := fun _ => true

/-- A chunk used in concrete runs of the writer. -/
def sampleChunk : ChunkRecord :=
  { post_id := "P1".data, timestamp := "2024-01-01".data,
    full_chunk := "text".data, engagement_score := 1 }

/-- `n` records that all insert successfully. -/
def okRecords (n : Nat) : List (ChunkRecord × Bool) :=
  List.replicate n (sampleChunk, true)

/-! ### Step lemmas for the writer -/

lemma insert_chunk_exec_fail (env : Nat → Bool) (c : ChunkRecord) (s : WriterState) :
    insert_chunk env c false s
      = (false, { s with pending := [], total_failed := s.total_failed + 1 }) := rfl

lemma insert_chunk_ok_below (env : Nat → Bool) (c : ChunkRecord) (s : WriterState)
    (h : s.insert_count + 1 < s.batch_commit_size) :
    insert_chunk env c true s
      = (true, { s with
                 pending := s.pending ++ [c],
                 insert_count := s.insert_count + 1 }) := by
  have h' : ¬ s.batch_commit_size ≤ s.insert_count + 1 := Nat.not_le.2 h
  simp [insert_chunk, h']

lemma insert_chunk_ok_commit (c : ChunkRecord) (s : WriterState)
    (h : s.batch_commit_size ≤ s.insert_count + 1) :
    insert_chunk allCommitsOk c true s
      = (true, { s with
                 pending := [], insert_count := 0,
                 committed := s.committed ++ (s.pending ++ [c]),
                 total_inserted := s.total_inserted + (s.insert_count + 1),
                 commit_attempts := s.commit_attempts + 1,
                 commit_count := s.commit_count + 1 }) := by
  simp [insert_chunk, h, pyCommit, allCommitsOk, commitState]

lemma insertLoop_append (env : Nat → Bool) (a b : List (ChunkRecord × Bool)) :
    ∀ (suc fail : Nat) (s : WriterState),
      insertLoop env (a ++ b) suc fail s
        = insertLoop env b (insertLoop env a suc fail s).1
            (insertLoop env a suc fail s).2.1 (insertLoop env a suc fail s).2.2 := by
  induction a with
  | nil => intro suc fail s; rfl
  | cons cb rest ih =>
    intro suc fail s
    rcases cb with ⟨c, ok⟩
    simp only [List.cons_append, insertLoop]
    rcases h : insert_chunk env c ok s with ⟨b1, s1⟩
    cases b1 <;> simp [ih]

lemma insertLoop_cons_true {env : Nat → Bool} {c : ChunkRecord} {ok : Bool}
    {s s1 : WriterState} (rest : List (ChunkRecord × Bool)) (suc fail : Nat)
    (h : insert_chunk env c ok s = (true, s1)) :
    insertLoop env ((c, ok) :: rest) suc fail s
      = insertLoop env rest (suc + 1) fail s1 := by
  show (match insert_chunk env c ok s with
    | (true, s1) => insertLoop env rest (suc + 1) fail s1
    | (false, s1) => insertLoop env rest suc (fail + 1) s1)
      = insertLoop env rest (suc + 1) fail s1
  rw [h]

lemma insertLoop_cons_false {env : Nat → Bool} {c : ChunkRecord} {ok : Bool}
    {s s1 : WriterState} (rest : List (ChunkRecord × Bool)) (suc fail : Nat)
    (h : insert_chunk env c ok s = (false, s1)) :
    insertLoop env ((c, ok) :: rest) suc fail s
      = insertLoop env rest suc (fail + 1) s1 := by
  show (match insert_chunk env c ok s with
    | (true, s1) => insertLoop env rest (suc + 1) fail s1
    | (false, s1) => insertLoop env rest suc (fail + 1) s1)
      = insertLoop env rest suc (fail + 1) s1
  rw [h]

lemma insertLoop_ok_underfill (c : ChunkRecord) :
    ∀ (k : Nat) (suc fail : Nat) (s : WriterState),
      s.insert_count + k < s.batch_commit_size →
      insertLoop allCommitsOk (List.replicate k (c, true)) suc fail s
        = (suc + k, fail,
           { s with
             pending := s.pending ++ List.replicate k c,
             insert_count := s.insert_count + k }) := by
  intro k
  induction k with
  | zero => intro suc fail s h; simp [insertLoop]
  | succ k ih =>
    intro suc fail s h
    rw [List.replicate_succ,
        insertLoop_cons_true _ suc fail (insert_chunk_ok_below allCommitsOk c s (by omega)),
        ih (suc + 1) fail _ (by simp; omega)]
    simp [Prod.mk.injEq, List.replicate_succ, List.append_assoc]
    omega

lemma insertLoop_ok_fills (c : ChunkRecord) :
    ∀ (k : Nat) (suc fail : Nat) (s : WriterState),
      0 < k →
      s.insert_count + k = s.batch_commit_size →
      insertLoop allCommitsOk (List.replicate k (c, true)) suc fail s
        = (suc + k, fail,
           { s with
             pending := [], insert_count := 0,
             committed := s.committed ++ (s.pending ++ List.replicate k c),
             total_inserted := s.total_inserted + s.batch_commit_size,
             commit_attempts := s.commit_attempts + 1,
             commit_count := s.commit_count + 1 }) := by
  intro k
  induction k with
  | zero => intro suc fail s h0 h; omega
  | succ k ih =>
    intro suc fail s h0 h
    rcases Nat.eq_zero_or_pos k with hk | hk
    · subst hk
      rw [List.replicate_succ,
          insertLoop_cons_true _ suc fail (insert_chunk_ok_commit c s (by omega))]
      simp [List.replicate_succ, insertLoop, Prod.mk.injEq, WriterState.mk.injEq]
      omega
    · rw [List.replicate_succ,
          insertLoop_cons_true _ suc fail (insert_chunk_ok_below allCommitsOk c s (by omega)),
          ih (suc + 1) fail _ hk (by simp; omega)]
      simp [Prod.mk.injEq, WriterState.mk.injEq, List.replicate_succ,
        List.append_assoc]
      omega

def recsFail1500 : List (ChunkRecord × Bool) :=
  okRecords 1499 ++ [(sampleChunk, false)] ++ okRecords 1000

lemma pyCommit_allOk (s : WriterState) :
    pyCommit allCommitsOk s = Except.ok (commitState s) := by
  simp [pyCommit, allCommitsOk]

set_option maxRecDepth 4000 in
lemma exampleA_loop :
    insertLoop allCommitsOk (okRecords 2500) 0 0 (initWriter 1000)
      = (2500, 0,
         { batch_commit_size := 1000, insert_count := 500,
           total_inserted := 2000, total_failed := 0,
           pending := List.replicate 500 sampleChunk,
           committed := List.replicate 2000 sampleChunk,
           commit_attempts := 2, commit_count := 2 }) := by
  rw [okRecords, show (2500 : Nat) = 1000 + (1000 + 500) from rfl,
      List.replicate_add, List.replicate_add]
  rw [insertLoop_append, insertLoop_ok_fills sampleChunk 1000 0 0 (initWriter 1000)
        (by omega) (by simp [initWriter])]
  rw [insertLoop_append]
  rw [insertLoop_ok_fills sampleChunk 1000 _ _ _ (by omega) (by simp [initWriter])]
  rw [insertLoop_ok_underfill sampleChunk 500 _ _ _ (by simp [initWriter])]
  simp [initWriter, Prod.mk.injEq, WriterState.mk.injEq, ← List.replicate_add]

set_option maxRecDepth 4000 in
lemma exampleB_loop :
    insertLoop allCommitsOk recsFail1500 0 0 (initWriter 1000)
      = (2499, 1,
         { batch_commit_size := 1000, insert_count := 499,
           total_inserted := 2000, total_failed := 1,
           pending := List.replicate 499 sampleChunk,
           committed := List.replicate 1000 sampleChunk ++ List.replicate 501 sampleChunk,
           commit_attempts := 2, commit_count := 2 }) := by
  have h1499 : okRecords 1499
      = List.replicate 1000 (sampleChunk, true) ++ List.replicate 499 (sampleChunk, true) := by
    rw [okRecords, ← List.replicate_add]
  have h1000 : okRecords 1000
      = List.replicate 501 (sampleChunk, true) ++ List.replicate 499 (sampleChunk, true) := by
    rw [okRecords, ← List.replicate_add]
  rw [recsFail1500, h1499, h1000]
  rw [List.append_assoc, List.append_assoc, insertLoop_append,
      insertLoop_ok_fills sampleChunk 1000 0 0 (initWriter 1000)
        (by omega) (by simp [initWriter])]
  rw [insertLoop_append,
      insertLoop_ok_underfill sampleChunk 499 _ _ _ (by simp [initWriter])]
  rw [show ([(sampleChunk, false)] : List (ChunkRecord × Bool))
        ++ (List.replicate 501 (sampleChunk, true) ++ List.replicate 499 (sampleChunk, true))
      = (sampleChunk, false)
        :: (List.replicate 501 (sampleChunk, true) ++ List.replicate 499 (sampleChunk, true))
      from rfl,
      insertLoop_cons_false _ _ _ (insert_chunk_exec_fail allCommitsOk sampleChunk _)]
  rw [insertLoop_append,
      insertLoop_ok_fills sampleChunk 501 _ _ _ (by omega) (by simp [initWriter]),
      insertLoop_ok_underfill sampleChunk 499 _ _ _ (by simp [initWriter])]
  simp [initWriter, Prod.mk.injEq, WriterState.mk.injEq]

set_option maxRecDepth 4000 in
lemma exampleA_batch :
    insert_chunks_batch allCommitsOk (okRecords 2500) (initWriter 1000)
      = Except.ok ({ total := 2500, success := 2500, failed := 0 },
          { batch_commit_size := 1000, insert_count := 0,
            total_inserted := 2500, total_failed := 0,
            pending := [],
            committed := List.replicate 2500 sampleChunk,
            commit_attempts := 3, commit_count := 3 }) := by
  have hlen : (okRecords 2500).length = 2500 := by
    rw [okRecords, List.length_replicate]
  rw [insert_chunks_batch]
  rw [exampleA_loop, hlen]
  dsimp only
  rw [if_pos (show (0 : Nat) < 500 from by omega), pyCommit_allOk]
  dsimp only [commitState]
  refine congrArg Except.ok (congrArg _ ?_)
  simp only [WriterState.mk.injEq, ← List.replicate_add]


set_option maxRecDepth 4000 in
lemma exampleB_batch :
    insert_chunks_batch allCommitsOk recsFail1500 (initWriter 1000)
      = Except.ok ({ total := 2500, success := 2499, failed := 1 },
          { batch_commit_size := 1000, insert_count := 0,
            total_inserted := 2499, total_failed := 1,
            pending := [],
            committed := List.replicate 1000 sampleChunk ++ List.replicate 501 sampleChunk
              ++ List.replicate 499 sampleChunk,
            commit_attempts := 3, commit_count := 3 }) := by
  have hlen : recsFail1500.length = 2500 := by
    rw [recsFail1500, okRecords, okRecords]
    rw [List.length_append, List.length_append, List.length_replicate,
        List.length_replicate]
    rfl
  rw [insert_chunks_batch]
  rw [exampleB_loop, hlen]
  dsimp only
  rw [if_pos (show (0 : Nat) < 499 from by omega), pyCommit_allOk]
  dsimp only [commitState]

lemma insert_chunk_pending_le (env : Nat → Bool) (c : ChunkRecord) (ok : Bool)
    (s : WriterState) (h : s.pending.length ≤ s.insert_count) :
    (insert_chunk env c ok s).2.pending.length
      ≤ (insert_chunk env c ok s).2.insert_count := by
  unfold insert_chunk
  cases ok
  · simp [rollbackState]
  · dsimp only
    by_cases hth : s.batch_commit_size ≤ s.insert_count + 1
    · simp only [hth, if_true]
      unfold pyCommit
      by_cases he : env s.commit_attempts
      · simp [he, commitState]
      · simp [he, rollbackState]
    · simp only [hth, if_false]
      simp [List.length_append]
      omega

lemma insertLoop_pending_le (env : Nat → Bool) :
    ∀ (recs : List (ChunkRecord × Bool)) (suc fail : Nat) (s : WriterState),
      s.pending.length ≤ s.insert_count →
      (insertLoop env recs suc fail s).2.2.pending.length
        ≤ (insertLoop env recs suc fail s).2.2.insert_count := by
  intro recs
  induction recs with
  | nil => intro suc fail s h; exact h
  | cons cb rest ih =>
    intro suc fail s h
    rcases cb with ⟨c, ok⟩
    have hstep := insert_chunk_pending_le env c ok s h
    rcases hr : insert_chunk env c ok s with ⟨b, s1⟩
    rw [hr] at hstep
    cases b
    · rw [insertLoop_cons_false rest suc fail hr]
      exact ih suc (fail + 1) s1 hstep
    · rw [insertLoop_cons_true rest suc fail hr]
      exact ih (suc + 1) fail s1 hstep

lemma insertLoop_counts (env : Nat → Bool) :
    ∀ (recs : List (ChunkRecord × Bool)) (suc fail : Nat) (s : WriterState),
      (insertLoop env recs suc fail s).1 + (insertLoop env recs suc fail s).2.1
        = suc + fail + recs.length := by
  intro recs
  induction recs with
  | nil => intro suc fail s; rfl
  | cons cb rest ih =>
    intro suc fail s
    rcases cb with ⟨c, ok⟩
    rcases hr : insert_chunk env c ok s with ⟨b, s1⟩
    cases b
    · rw [insertLoop_cons_false rest suc fail hr, ih]
      simp [List.length_cons]
      omega
    · rw [insertLoop_cons_true rest suc fail hr, ih]
      simp [List.length_cons]
      omega

lemma insert_chunk_committed_extends (env : Nat → Bool) (c : ChunkRecord) (ok : Bool)
    (s : WriterState) :
    ∃ t, (insert_chunk env c ok s).2.committed = s.committed ++ t := by
  unfold insert_chunk
  cases ok
  · exact ⟨[], by simp [rollbackState]⟩
  · dsimp only
    by_cases hth : s.batch_commit_size ≤ s.insert_count + 1
    · simp only [hth, if_true]
      unfold pyCommit
      by_cases he : env s.commit_attempts
      · refine ⟨s.pending ++ [c], ?_⟩
        simp [he, commitState]
      · refine ⟨[], ?_⟩
        simp [he, rollbackState]
    · exact ⟨[], by simp [hth]⟩

lemma insertLoop_committed_extends (env : Nat → Bool) :
    ∀ (recs : List (ChunkRecord × Bool)) (suc fail : Nat) (s : WriterState),
      ∃ t, (insertLoop env recs suc fail s).2.2.committed = s.committed ++ t := by
  intro recs
  induction recs with
  | nil => intro suc fail s; exact ⟨[], by simp [insertLoop]⟩
  | cons cb rest ih =>
    intro suc fail s
    rcases cb with ⟨c, ok⟩
    obtain ⟨t1, ht1⟩ := insert_chunk_committed_extends env c ok s
    rcases hr : insert_chunk env c ok s with ⟨b, s1⟩
    rw [hr] at ht1
    cases b
    · rcases ih suc (fail + 1) s1 with ⟨t2, ht2⟩
      refine ⟨t1 ++ t2, ?_⟩
      rw [insertLoop_cons_false rest suc fail hr, ht2, ht1, List.append_assoc]
    · rcases ih (suc + 1) fail s1 with ⟨t2, ht2⟩
      refine ⟨t1 ++ t2, ?_⟩
      rw [insertLoop_cons_true rest suc fail hr, ht2, ht1, List.append_assoc]

lemma insert_chunk_true_allOk (c : ChunkRecord) (s : WriterState) :
    (insert_chunk allCommitsOk c true s).1 = true
    ∧ (insert_chunk allCommitsOk c true s).2.committed
        ++ (insert_chunk allCommitsOk c true s).2.pending
      = s.committed ++ s.pending ++ [c] := by
  unfold insert_chunk
  by_cases hth : s.batch_commit_size ≤ s.insert_count + 1
  · simp [hth, pyCommit_allOk, commitState, List.append_assoc]
  · simp [hth, List.append_assoc]

lemma insertLoop_all_ok (chunks : List ChunkRecord) :
    ∀ (suc fail : Nat) (s : WriterState),
      (insertLoop allCommitsOk (chunks.map fun c => (c, true)) suc fail s).1
          = suc + chunks.length
      ∧ (insertLoop allCommitsOk (chunks.map fun c => (c, true)) suc fail s).2.1 = fail
      ∧ (insertLoop allCommitsOk (chunks.map fun c => (c, true)) suc fail s).2.2.committed
          ++ (insertLoop allCommitsOk (chunks.map fun c => (c, true)) suc fail s).2.2.pending
        = s.committed ++ s.pending ++ chunks := by
  induction chunks with
  | nil => intro suc fail s; simp [insertLoop]
  | cons c cs ih =>
    intro suc fail s
    obtain ⟨h1, h2⟩ := insert_chunk_true_allOk c s
    rcases hr : insert_chunk allCommitsOk c true s with ⟨b, s1⟩
    rw [hr] at h1 h2
    cases b
    · exact absurd h1 (by simp)
    · simp only [List.map_cons]
      rw [insertLoop_cons_true _ suc fail hr]
      obtain ⟨g1, g2, g3⟩ := ih (suc + 1) fail s1
      refine ⟨?_, g2, ?_⟩
      · rw [g1]
        simp [List.length_cons]
        omega
      · rw [g3]
        dsimp only at h2
        rw [h2]
        simp [List.append_assoc]

/-- Claim C3 (amended): `insert_chunks_batch` issues a final commit whenever
the since-last-commit counter is positive after the loop, and `disconnect`
does the same, so no rows remain pending (uncommitted) when either returns;
when every insert succeeds, every record is durably persisted.  (The
original claim additionally asserted that no write that reported success is
ever left unpersisted; the counterexample shows a later failed write rolls
back the uncommitted segment containing it.) -/
theorem claim_C3_final_commit :
    (∀ (recs : List (ChunkRecord × Bool)) (s : WriterState),
        s.pending.length ≤ s.insert_count →
        ∃ q, insert_chunks_batch allCommitsOk recs s = Except.ok q
          ∧ q.2.pending = [])
    ∧ (∀ s : WriterState, s.pending.length ≤ s.insert_count →
        ∃ s', disconnect allCommitsOk s = Except.ok s' ∧ s'.pending = [])
    ∧ (∀ (N : Nat) (chunks : List ChunkRecord),
        ∃ q, insert_chunks_batch allCommitsOk (chunks.map fun c => (c, true))
              (initWriter N)
            = Except.ok q
          ∧ q.2.committed = chunks ∧ q.1.success = chunks.length
          ∧ q.1.failed = 0 ∧ q.2.pending = []) := by
  refine ⟨?_, ?_, ?_⟩
  · intro recs s h
    have hloop := insertLoop_pending_le allCommitsOk recs 0 0 s h
    rw [insert_chunks_batch]
    by_cases hc : 0 < (insertLoop allCommitsOk recs 0 0 s).2.2.insert_count
    · rw [if_pos hc, pyCommit_allOk]
      exact ⟨_, rfl, rfl⟩
    · rw [if_neg hc]
      refine ⟨_, rfl, ?_⟩
      show (insertLoop allCommitsOk recs 0 0 s).2.2.pending = []
      exact List.eq_nil_of_length_eq_zero (by omega)
  · intro s h
    rw [disconnect]
    by_cases hc : 0 < s.insert_count
    · rw [if_pos hc, pyCommit_allOk]
      exact ⟨_, rfl, rfl⟩
    · rw [if_neg hc]
      refine ⟨_, rfl, ?_⟩
      exact List.eq_nil_of_length_eq_zero (by omega)
  · intro N chunks
    obtain ⟨h1, h2, h3⟩ := insertLoop_all_ok chunks 0 0 (initWriter N)
    have hys : (initWriter N).committed ++ (initWriter N).pending ++ chunks = chunks := by
      simp [initWriter]
    rw [hys] at h3
    have hinv := insertLoop_pending_le allCommitsOk (chunks.map fun c => (c, true)) 0 0
      (initWriter N) (by simp [initWriter])
    rw [insert_chunks_batch]
    by_cases hc : 0 < (insertLoop allCommitsOk (chunks.map fun c => (c, true)) 0 0
        (initWriter N)).2.2.insert_count
    · rw [if_pos hc, pyCommit_allOk]
      refine ⟨_, rfl, ?_, ?_, h2, rfl⟩
      · show (insertLoop allCommitsOk (chunks.map fun c => (c, true)) 0 0
            (initWriter N)).2.2.committed
          ++ (insertLoop allCommitsOk (chunks.map fun c => (c, true)) 0 0
            (initWriter N)).2.2.pending = chunks
        exact h3
      · show (insertLoop allCommitsOk (chunks.map fun c => (c, true)) 0 0
            (initWriter N)).1 = chunks.length
        rw [h1, Nat.zero_add]
    · rw [if_neg hc]
      have hpend : (insertLoop allCommitsOk (chunks.map fun c => (c, true)) 0 0
          (initWriter N)).2.2.pending = [] :=
        List.eq_nil_of_length_eq_zero (by omega)
      refine ⟨_, rfl, ?_, ?_, h2, hpend⟩
      · rw [hpend, List.append_nil] at h3
        exact h3
      · show (insertLoop allCommitsOk (chunks.map fun c => (c, true)) 0 0
            (initWriter N)).1 = chunks.length
        rw [h1, Nat.zero_add]

/-- Witness for C3 at a concrete input. -/
theorem claim_C3_final_commit_witness :
    ∃ q, insert_chunks_batch allCommitsOk [(sampleChunk, true)] (initWriter 3)
        = Except.ok q ∧ q.2.pending = [] :=
  claim_C3_final_commit.1 [(sampleChunk, true)] (initWriter 3) (by simp [initWriter])

/-- Counterexample to C3 as stated: with threshold 10 and records
[ok, fail], the first write reports success, yet after `insert_chunks_batch`
returns (and after `disconnect`) the store holds no rows: the failure of the
second record rolled back the uncommitted segment containing the first. -/
theorem claim_C3_counterexample :
    (insert_chunk allCommitsOk sampleChunk true (initWriter 10)).1 = true
    ∧ (insert_chunks_batch allCommitsOk [(sampleChunk, true), (sampleChunk, false)]
        (initWriter 10)).map
        (fun q => (q.1.success, q.2.committed,
          (disconnect allCommitsOk q.2).map WriterState.committed))
      = Except.ok (1, [], Except.ok []) :=
  ⟨rfl, rfl⟩

set_option maxRecDepth 4000 in
/-- Claim C2: a commit is issued exactly when the since-last-commit counter
reaches the threshold after a successful write, the counter then resets to
zero, and a failed write advances neither the counter nor the commit count;
2500 all-successful records with threshold 1000 produce exactly 3 commits
(checkpoints after records 1000 and 2000, then a final commit of the
remaining 500) and stats success=2500/failed=0; with only record #1500
failing the returned stats are success=2499/failed=1 and the final forced
commit still occurs (3 commits in total, 2 during the loop). -/
theorem claim_C2_commit_cadence :
    (∀ (env : Nat → Bool) (c : ChunkRecord) (s : WriterState),
        s.insert_count + 1 < s.batch_commit_size →
        insert_chunk env c true s
          = (true, { s with
                     pending := s.pending ++ [c],
                     insert_count := s.insert_count + 1 }))
    ∧ (∀ (c : ChunkRecord) (s : WriterState),
        s.batch_commit_size ≤ s.insert_count + 1 →
        (insert_chunk allCommitsOk c true s).1 = true
        ∧ (insert_chunk allCommitsOk c true s).2.insert_count = 0
        ∧ (insert_chunk allCommitsOk c true s).2.commit_count = s.commit_count + 1)
    ∧ (∀ (env : Nat → Bool) (c : ChunkRecord) (s : WriterState),
        (insert_chunk env c false s).2.insert_count = s.insert_count
        ∧ (insert_chunk env c false s).2.commit_count = s.commit_count)
    ∧ (insertLoop allCommitsOk (okRecords 1000) 0 0 (initWriter 1000)).2.2.commit_count
        = 1
    ∧ (insertLoop allCommitsOk (okRecords 2000) 0 0 (initWriter 1000)).2.2.commit_count
        = 2
    ∧ (∃ s1, insert_chunks_batch allCommitsOk (okRecords 2500) (initWriter 1000)
          = Except.ok ({ total := 2500, success := 2500, failed := 0 }, s1)
        ∧ s1.commit_count = 3 ∧ s1.committed.length = 2500 ∧ s1.insert_count = 0)
    ∧ (∃ s2, insert_chunks_batch allCommitsOk recsFail1500 (initWriter 1000)
          = Except.ok ({ total := 2500, success := 2499, failed := 1 }, s2)
        ∧ s2.commit_count = 3
        ∧ (insertLoop allCommitsOk recsFail1500 0 0 (initWriter 1000)).2.2.commit_count
            = 2) := by
  refine ⟨?_, ?_, ?_, ?_, ?_, ?_, ?_⟩
  · intro env c s h
    exact insert_chunk_ok_below env c s h
  · intro c s h
    rw [insert_chunk_ok_commit c s h]
    exact ⟨rfl, rfl, rfl⟩
  · intro env c s
    rw [insert_chunk_exec_fail env c s]
    exact ⟨rfl, rfl⟩
  · rw [okRecords,
        insertLoop_ok_fills sampleChunk 1000 0 0 (initWriter 1000)
          (by omega) (by simp [initWriter])]
    rfl
  · rw [okRecords, show (2000 : Nat) = 1000 + 1000 from rfl, List.replicate_add,
        insertLoop_append,
        insertLoop_ok_fills sampleChunk 1000 0 0 (initWriter 1000)
          (by omega) (by simp [initWriter]),
        insertLoop_ok_fills sampleChunk 1000 _ _ _ (by omega) (by simp [initWriter])]
    rfl
  · refine ⟨_, exampleA_batch, rfl, ?_, rfl⟩
    rw [List.length_replicate]
  · refine ⟨_, exampleB_batch, rfl, ?_⟩
    rw [exampleB_loop]

set_option maxRecDepth 4000 in
/-- Witness for C2 at a concrete input. -/
theorem claim_C2_commit_cadence_witness :
    insert_chunk allCommitsOk sampleChunk true (initWriter 1000)
      = (true, { initWriter 1000 with
                 pending := [sampleChunk], insert_count := 1 }) := by
  have h := claim_C2_commit_cadence.1 allCommitsOk sampleChunk (initWriter 1000)
    (by simp [initWriter])
  simpa [initWriter] using h

/-- Claim C4: a failed single-record write rolls back only the current
uncommitted segment (`pending`), increments the cumulative failure counter,
reports failure, and the loop continues with the next record; every record
of the batch is tallied (no abort), and the committed store is only ever
extended, never shrunk. -/
theorem claim_C4_failure_isolation :
    (∀ (env : Nat → Bool) (c : ChunkRecord) (s : WriterState),
        insert_chunk env c false s
          = (false, { s with pending := [], total_failed := s.total_failed + 1 }))
    ∧ (∀ (env : Nat → Bool) (c : ChunkRecord) (s : WriterState)
         (rest : List (ChunkRecord × Bool)) (suc fail : Nat),
        insertLoop env ((c, false) :: rest) suc fail s
          = insertLoop env rest suc (fail + 1)
              { s with pending := [], total_failed := s.total_failed + 1 })
    ∧ (∀ (env : Nat → Bool) (recs : List (ChunkRecord × Bool))
         (suc fail : Nat) (s : WriterState),
        (insertLoop env recs suc fail s).1 + (insertLoop env recs suc fail s).2.1
          = suc + fail + recs.length)
    ∧ (∀ (env : Nat → Bool) (recs : List (ChunkRecord × Bool))
         (suc fail : Nat) (s : WriterState),
        ∃ t, (insertLoop env recs suc fail s).2.2.committed = s.committed ++ t) := by
  refine ⟨insert_chunk_exec_fail, ?_, insertLoop_counts, insertLoop_committed_extends⟩
  intro env c s rest suc fail
  exact insertLoop_cons_false rest suc fail (insert_chunk_exec_fail env c s)

/-- Claim C7 is violated by the code: with threshold 2 and records
[ok, fail, ok], the checkpoint commit after the third record adds
`insert_count = 2` to `total_inserted` although only one row is actually
committed (the failure rolled back the first row without resetting
`insert_count`), so `get_statistics` reports 2 inserted while the store
holds 1 row. -/
theorem claim_C7_total_inserted_bug :
    (insert_chunks_batch allCommitsOk
        [(sampleChunk, true), (sampleChunk, false), (sampleChunk, true)]
        (initWriter 2)).map
        (fun q => ((get_statistics q.2).1, q.2.committed.length))
      = Except.ok (2, 1) := rfl

/-- Commit oracle whose first commit attempt raises and later ones succeed. -/
def failFirstCommit : Nat → Bool := fun n => decide (1 ≤ n)

/-- Commit oracle whose every commit attempt raises. -/
def noCommitsOk : Nat → Bool := fun _ => false

/-- Counterexample to C10 as stated: a commit error at a checkpoint inside
`insert_chunk` is caught by that method's own error handler — the record is
tallied as failed and the batch returns normally — rather than propagating
out of `insert_chunks_batch`. -/
theorem claim_C10_counterexample :
    (insert_chunk failFirstCommit sampleChunk true (initWriter 1)).1 = false
    ∧ (insert_chunk failFirstCommit sampleChunk true (initWriter 1)).2.total_failed = 1
    ∧ (insert_chunks_batch failFirstCommit (okRecords 2) (initWriter 1)).map
        (fun q => (q.1.success, q.1.failed))
      = Except.ok (1, 1) :=
  ⟨rfl, rfl, rfl⟩

/-- Claim C10 (amended): `_commit` rolls back and re-raises on a commit
error; an error of the final commit of `insert_chunks_batch`, or of the
commit done by `disconnect`, propagates to the caller; but a commit error at
a checkpoint inside `insert_chunk` is caught by the per-record handler,
tallied as that record's failure, and the batch continues. -/
theorem claim_C10_commit_propagation :
    (∀ (env : Nat → Bool) (s : WriterState),
        env s.commit_attempts = false →
        pyCommit env s
          = Except.error { s with
                           pending := [],
                           commit_attempts := s.commit_attempts + 1 })
    ∧ (∀ (env : Nat → Bool) (c : ChunkRecord) (s : WriterState),
        env s.commit_attempts = false →
        s.batch_commit_size ≤ s.insert_count + 1 →
        insert_chunk env c true s
          = (false, { s with
                      pending := [],
                      insert_count := s.insert_count + 1,
                      total_failed := s.total_failed + 1,
                      commit_attempts := s.commit_attempts + 1 }))
    ∧ (∀ (env : Nat → Bool) (recs : List (ChunkRecord × Bool)) (s : WriterState),
        0 < (insertLoop env recs 0 0 s).2.2.insert_count →
        env ((insertLoop env recs 0 0 s).2.2.commit_attempts) = false →
        ∃ e, insert_chunks_batch env recs s = Except.error e ∧ e.pending = [])
    ∧ (∀ (env : Nat → Bool) (s : WriterState),
        0 < s.insert_count →
        env s.commit_attempts = false →
        disconnect env s
          = Except.error { s with
                           pending := [],
                           commit_attempts := s.commit_attempts + 1 }) := by
  have hpc : ∀ (env : Nat → Bool) (s : WriterState),
      env s.commit_attempts = false →
      pyCommit env s
        = Except.error { s with
                         pending := [],
                         commit_attempts := s.commit_attempts + 1 } := by
    intro env s h
    simp [pyCommit, h, rollbackState]
  refine ⟨hpc, ?_, ?_, ?_⟩
  · intro env c s h hth
    unfold insert_chunk
    dsimp only
    rw [if_pos (show ({ s with
          pending := s.pending ++ [c],
          insert_count := s.insert_count + 1 } : WriterState).batch_commit_size
        ≤ ({ s with
          pending := s.pending ++ [c],
          insert_count := s.insert_count + 1 } : WriterState).insert_count from hth)]
    rw [hpc env _ (by simpa using h)]
    simp [rollbackState]
  · intro env recs s hc he
    rw [insert_chunks_batch]
    rw [if_pos hc]
    rw [hpc env _ he]
    exact ⟨_, rfl, rfl⟩
  · intro env s hc he
    rw [disconnect, if_pos hc]
    exact hpc env s he

/-- Witness for C10 (amended) at a concrete input. -/
theorem claim_C10_commit_propagation_witness :
    disconnect noCommitsOk
        { initWriter 5 with insert_count := 2, pending := [sampleChunk, sampleChunk] }
      = Except.error
          { initWriter 5 with insert_count := 2, pending := [], commit_attempts := 1 } := by
  have h := claim_C10_commit_propagation.2.2.2 noCommitsOk
    { initWriter 5 with insert_count := 2, pending := [sampleChunk, sampleChunk] }
    (by simp) (by simp [noCommitsOk])
  simpa [initWriter] using h
